import Mathlib

/-!
Shallow embedding of `src/packet_sniffer/src/pkt_parser/mod.rs`.

Byte buffers (`Vec<u8>`) are modelled as `List Nat`, each element a byte
value (< 256 in the source's domain; theorems add this bound where the
claim depends on it).  Rust slice indexing panics when out of bounds, so
every `decode` is modelled as returning `Option (...)`: `none` models a
panic, `some` a normal return.  `decode` in the source returns the pair
`(Result<Header, DecodeError>, Vec<u8>)`, modelled as
`Except DecodeError H × List Nat`.
-/

namespace PktParser

/-- Models `utils`: `write!(f, "{:02x}", byte)` — two lowercase hex digits,
zero padded (for byte values < 256, the source's domain). -/
def byteToHex2 (b : Nat) : String :=
  (if b < 16 then ("0") else ("")) ++ String.mk (Nat.toDigits 16 b)

/-- Models `.replace(" ", "")`: replacing every occurrence of the one-character
pattern `" "` by the empty string removes exactly the space characters
(`Char.ofNat 32` is the space character). -/
def removeSpaces (s : String) : String :=
  String.mk (s.data.filter (fun c => c != Char.ofNat 32))

/-- `utils::mac_address_to_string`: each byte as `{:02x}`, concatenated, then
`.replace(" ", "")` (a no-op on hex output, kept for faithfulness). -/
def mac_address_to_string (address : List Nat) : String :=
  removeSpaces (String.join (address.map byteToHex2))

/-- `utils::ipv4_address_to_string`: each byte in decimal, joined by `"."`. -/
def ipv4_address_to_string (address : List Nat) : String :=
  String.intercalate (".") (address.map (fun b => toString b))

/-- `utils::ipv6_address_to_string`: same hex rendering as the MAC case
(`slice::Iter` implements `AsRef<[u8]>`, so `hex_display` sees the slice). -/
def ipv6_address_to_string (address : List Nat) : String :=
  removeSpaces (String.join (address.map byteToHex2))

/-- `struct DecodeError { pub msg: String }` -/
structure DecodeError where
  msg : String
deriving Repr, DecidableEq

/-- `enum Direction { Received, Transmitted }` -/
inductive Direction where
  | Received
  | Transmitted
deriving Repr, DecidableEq

/-- `enum EtherType { Ipv4, Ipv6, ARP }` -/
inductive EtherType where
  | Ipv4
  | Ipv6
  | ARP
deriving Repr, DecidableEq

/-- `enum Protocol { TCP, UDP, Unknown }` -/
inductive Protocol where
  | TCP
  | UDP
  | Unknown
deriving Repr, DecidableEq

/-- `struct EthernetHeader { _dest, _src, ether_type }` (source field order). -/
structure EthernetHeader where
  _dest : String
  _src : String
  ether_type : EtherType
deriving Repr, DecidableEq

/-- The `match ((ether_type_vec[0] as u16) << 8) | ether_type_vec[1] as u16`
arms of `EthernetHeader::decode`, as a function of the matched value. -/
def etherTypeOf (v : Nat) : Except DecodeError EtherType :=
  match v with
  | 0x0800 => Except.ok EtherType.Ipv4
  | 0x0806 => Except.ok EtherType.ARP
  | 0x86DD => Except.ok EtherType.Ipv6
  | val => Except.error
      ⟨"Cannot get the correct ether type, received 0x" ++ String.mk (Nat.toDigits 16 val)⟩

/-- `impl Header for EthernetHeader`: guard `len < 14`; slices
`eth_header = data[0..14]`, `ether_type_vec = eth_header[12..14]`,
`ether_payload = data[14..len]` are all in bounds once the guard passed,
so no panic is possible on this path. -/
def EthernetHeader.decode (data : List Nat) :
    Option (Except DecodeError EthernetHeader × List Nat) :=
  let len := data.length
  if len < 14 then
    some (Except.error ⟨"Cannot decode an ethernet packet because is not long enough."⟩, data)
  else
    let eth_header := data.take 14
    let ether_type_vec := (eth_header.drop 12).take 2
    let ether_payload := data.drop 14
    match etherTypeOf ((ether_type_vec.getD 0 0 <<< 8) ||| ether_type_vec.getD 1 0) with
    | Except.error e => some (Except.error e, data)
    | Except.ok ether_type =>
        some (Except.ok
          ⟨mac_address_to_string (eth_header.take 6),
           mac_address_to_string ((eth_header.drop 6).take 6),
           ether_type⟩,
          ether_payload)

def EthernetHeader.get_ether_type (h : EthernetHeader) : EtherType := h.ether_type

def EthernetHeader.get_src_address (h : EthernetHeader) : String := h._src

def EthernetHeader.get_dest_address (h : EthernetHeader) : String := h._dest

/-- `struct Ipv4Header { dest, src, protocol }` (source field order). -/
structure Ipv4Header where
  dest : String
  src : String
  protocol : Protocol
deriving Repr, DecidableEq

/-- The `match &data[9]` arms of `Ipv4Header::decode`, as a function of the
matched byte. -/
def ipv4ProtocolOf (b : Nat) : Except DecodeError Protocol :=
  match b with
  | 0x06 => Except.ok Protocol.TCP
  | 0x11 => Except.ok Protocol.UDP
  | value => Except.error
      ⟨"Unable to identify level 4 protocol. Received 0x" ++ String.mk (Nat.toDigits 16 value)⟩

/-- `impl Header for Ipv4Header`: guard `len < 20`;
`header_len = (data[0] & 0x0f) as usize * 4`; protocol from `data[9]`
(in bounds after the guard); addresses from `data[12..16]` / `data[16..20]`
(in bounds); the final `&data[header_len..len]` panics when
`header_len > len`, modelled by `none`. -/
def Ipv4Header.decode (data : List Nat) :
    Option (Except DecodeError Ipv4Header × List Nat) :=
  let len := data.length
  if len < 20 then
    some (Except.error ⟨"Cannot decode ipv4 packet because is not long enough."⟩, data)
  else
    let header_len := (data.getD 0 0 &&& 0x0f) * 4
    match ipv4ProtocolOf (data.getD 9 0) with
    | Except.error e => some (Except.error e, data)
    | Except.ok protocol =>
        let src_address := ipv4_address_to_string ((data.drop 12).take 4)
        let dest_address := ipv4_address_to_string ((data.drop 16).take 4)
        if header_len ≤ len then
          some (Except.ok ⟨dest_address, src_address, protocol⟩, data.drop header_len)
        else
          none

def Ipv4Header.get_protocol (h : Ipv4Header) : Protocol := h.protocol

def Ipv4Header.get_src_address (h : Ipv4Header) : String := h.src

def Ipv4Header.get_dest_address (h : Ipv4Header) : String := h.dest

/-- `struct Ipv6Header { dest, src, protocol }` (source field order). -/
structure Ipv6Header where
  dest : String
  src : String
  protocol : Protocol
deriving Repr, DecidableEq

/-- The `match &data[9]` arms of `Ipv6Header::decode`: unlike IPv4, the
default arm yields `Protocol::Unknown` instead of an error. -/
def ipv6ProtocolOf (b : Nat) : Protocol :=
  match b with
  | 0x06 => Protocol.TCP
  | 0x11 => Protocol.UDP
  | _ => Protocol.Unknown

/-- `impl Header for Ipv6Header`: no length guard.  Accesses `data[9]`,
`data[8..20]`, `data[20..36]`, `data[40..len]`; the largest bound is the
final slice, so the function returns normally exactly when `40 ≤ len` and
panics (modelled `none`) for every shorter buffer. -/
def Ipv6Header.decode (data : List Nat) :
    Option (Except DecodeError Ipv6Header × List Nat) :=
  let len := data.length
  if 40 ≤ len then
    let protocol := ipv6ProtocolOf (data.getD 9 0)
    let src_address := ipv6_address_to_string ((data.drop 8).take 12)
    let dest_address := ipv6_address_to_string ((data.drop 20).take 16)
    some (Except.ok ⟨dest_address, src_address, protocol⟩, data.drop 40)
  else
    none

def Ipv6Header.get_protocol (h : Ipv6Header) : Protocol := h.protocol

def Ipv6Header.get_src_address (h : Ipv6Header) : String := h.src

def Ipv6Header.get_dest_address (h : Ipv6Header) : String := h.dest

/-- `struct UDPHeader { dest, src }` (source field order; ports are u16). -/
structure UDPHeader where
  dest : Nat
  src : Nat
deriving Repr, DecidableEq

/-- `impl Header for UDPHeader`: no guard and no error path.  Reads bytes
0..4 for the ports and returns `Vec::from(&data[8..])`; returns normally
exactly when `8 ≤ len`, panics (modelled `none`) otherwise. -/
def UDPHeader.decode (data : List Nat) :
    Option (Except DecodeError UDPHeader × List Nat) :=
  if 8 ≤ data.length then
    let src := (data.getD 0 0 <<< 8) ||| data.getD 1 0
    let dest := (data.getD 2 0 <<< 8) ||| data.getD 3 0
    some (Except.ok ⟨dest, src⟩, data.drop 8)
  else
    none

def UDPHeader.get_src_port (h : UDPHeader) : Nat := h.src

def UDPHeader.get_dest_port (h : UDPHeader) : Nat := h.dest

/-- `struct TCPHeader { dest, src }` (source field order; ports are u16). -/
structure TCPHeader where
  dest : Nat
  src : Nat
deriving Repr, DecidableEq

/-- `impl Header for TCPHeader`: no guard and no error path.  Reads bytes
0..4 for the ports and returns `Vec::from(&data[20..])`; returns normally
exactly when `20 ≤ len`, panics (modelled `none`) otherwise. -/
def TCPHeader.decode (data : List Nat) :
    Option (Except DecodeError TCPHeader × List Nat) :=
  if 20 ≤ data.length then
    let src := (data.getD 0 0 <<< 8) ||| data.getD 1 0
    let dest := (data.getD 2 0 <<< 8) ||| data.getD 3 0
    some (Except.ok ⟨dest, src⟩, data.drop 20)
  else
    none

def TCPHeader.get_src_port (h : TCPHeader) : Nat := h.src

def TCPHeader.get_dest_port (h : TCPHeader) : Nat := h.dest

/-- Models the external `pcap::Device` as the only thing the source reads
from it: the list of its addresses' string renderings (`a.addr.to_string()`). -/
structure Device where
  addresses : List String

/-- `get_direction_from_ipv4`. -/
def get_direction_from_ipv4 (header : Ipv4Header) (device : Device) : Direction :=
  if device.addresses.any (fun a => a == header.get_src_address) then
    Direction.Transmitted
  else Direction.Received

/-- `get_direction_from_ipv6`. -/
def get_direction_from_ipv6 (header : Ipv6Header) (device : Device) : Direction :=
  if device.addresses.any (fun a => a == header.get_src_address) then
    Direction.Transmitted
  else Direction.Received

/-- `struct TimeVal { sec: u32, u_sec: u32 }`.  Fields are modelled as `Nat`;
the u32 range is a hypothesis where a claim depends on it. -/
structure TimeVal where
  sec : Nat
  u_sec : Nat
deriving Repr, DecidableEq

/-- `impl Into<u64> for TimeVal`: `(sec as u64) * 1000000 + (u_sec as u64)`
in u64 arithmetic, hence the explicit `% 2^64` (the u8→u64 casts themselves
are exact). -/
def TimeVal.intoU64 (t : TimeVal) : Nat :=
  (t.sec * 1000000 + t.u_sec) % 2 ^ 64

/-- `impl From<u64> for TimeVal`:
`sec: (v / 1000000) as u32, u_sec: (v % 1000000) as u32` — the `as u32`
casts truncate, hence the explicit `% 2^32`. -/
def TimeVal.fromU64 (v : Nat) : TimeVal :=
  ⟨v / 1000000 % 2 ^ 32, v % 1000000 % 2 ^ 32⟩

/-- `struct PacketInfo` and `PacketInfo::new`. -/
structure PacketInfo where
  address : String
  port : Nat
  protocol : Protocol
  byte_transmitted : Nat
  ts : TimeVal
deriving Repr, DecidableEq

def PacketInfo.new (address : String) (port : Nat) (protocol : Protocol)
    (byte_transmitted : Nat) (ts : TimeVal) : PacketInfo :=
  ⟨address, port, protocol, byte_transmitted, ts⟩

/-! ### Helper lemmas -/

/-- `x &&& 0x0f` is `x % 16`. -/
theorem and_fifteen (x : Nat) : x &&& 15 = x % 16 := by
  have h := Nat.and_pow_two_sub_one_eq_mod x 4
  norm_num at h
  exact h

/-- Big-endian 16-bit read: `(a << 8) | b` is `256 * a + b` for byte `b`. -/
theorem shiftLeft8_or_eq (a b : Nat) (hb : b < 256) : (a <<< 8) ||| b = 256 * a + b := by
  have h : (2 : Nat) ^ 8 * a + b = 2 ^ 8 * a ||| b :=
    Nat.mul_add_lt_is_or (show b < 2 ^ 8 by norm_num; exact hb) a
  rw [Nat.shiftLeft_eq, Nat.mul_comm, ← h]
  norm_num

/-- Every byte read with default 0 from an all-byte buffer is a byte. -/
theorem getD_lt_256 (data : List Nat) (hb : ∀ b ∈ data, b < 256) (i : Nat) :
    data.getD i 0 < 256 := by
  rw [List.getD_eq_getElem?_getD]
  cases h : data[i]? with
  | none => simp
  | some b =>
      simp only [Option.getD_some]
      exact hb b (List.getElem?_mem h)

/-- Reading the ethertype bytes through the `eth_header` slices is reading
`data[12]` and `data[13]`. -/
theorem eth_type_vec_getD (data : List Nat) (i : Nat) (hi : i < 2) :
    ((((data.take 14).drop 12).take 2).getD i 0) = data.getD (12 + i) 0 := by
  rw [List.getD_eq_getElem?_getD, List.getD_eq_getElem?_getD,
    List.getElem?_take_of_lt hi, List.getElem?_drop,
    List.getElem?_take_of_lt (by omega : 12 + i < 14)]

/-- Direction dispatch on a list of address strings, as used by both
`get_direction_from_ipv4` and `get_direction_from_ipv6`. -/
theorem direction_if_iff (addrs : List String) (s : String) :
    ((if addrs.any (fun a => a == s) then Direction.Transmitted else Direction.Received) =
        Direction.Transmitted ↔ ∃ a ∈ addrs, a = s) ∧
    ((if addrs.any (fun a => a == s) then Direction.Transmitted else Direction.Received) =
        Direction.Received ↔ ¬ ∃ a ∈ addrs, a = s) := by
  by_cases h : addrs.any (fun a => a == s) = true
  · rw [if_pos h]
    simp only [List.any_eq_true, beq_iff_eq] at h
    exact ⟨iff_of_true rfl h, iff_of_false (by decide) (not_not_intro h)⟩
  · rw [if_neg h]
    simp only [List.any_eq_true, beq_iff_eq] at h
    exact ⟨iff_of_false (by decide) h, iff_of_true rfl h⟩

/-! ### Claim theorems -/

/-- C3: for every input buffer of fewer than 14 bytes, Ethernet decode
returns the too-short decode error and the original buffer unchanged as the
remainder. -/
theorem ethernet_decode_too_short (data : List Nat) (h : data.length < 14) :
    EthernetHeader.decode data =
      some (Except.error
        ⟨"Cannot decode an ethernet packet because is not long enough."⟩, data) := by
  simp only [EthernetHeader.decode]
  rw [if_pos h]

theorem ethernet_decode_too_short_witness :
    EthernetHeader.decode [1, 2, 3] =
      some (Except.error
        ⟨"Cannot decode an ethernet packet because is not long enough."⟩, [1, 2, 3]) :=
  ethernet_decode_too_short [1, 2, 3] (by decide)

/-- C8: converting `(sec, usec)` to a 64-bit microsecond count and back is
the identity whenever `sec < 2^32` and `usec < 1000000`. -/
theorem timeval_roundtrip (sec usec : Nat) (h1 : sec < 2 ^ 32) (h2 : usec < 1000000) :
    TimeVal.fromU64 (TimeVal.intoU64 ⟨sec, usec⟩) = ⟨sec, usec⟩ := by
  have e64 : (2 : Nat) ^ 64 = 18446744073709551616 := by norm_num
  have e32 : (2 : Nat) ^ 32 = 4294967296 := by norm_num
  rw [e32] at h1
  have hlt : sec * 1000000 + usec < 18446744073709551616 := by omega
  simp only [TimeVal.intoU64, TimeVal.fromU64, e64, e32, TimeVal.mk.injEq]
  rw [Nat.mod_eq_of_lt hlt]
  omega

theorem timeval_roundtrip_witness :
    TimeVal.fromU64 (TimeVal.intoU64 ⟨3, 5⟩) = ⟨3, 5⟩ :=
  timeval_roundtrip 3 5 (by norm_num) (by norm_num)

/-- C9: the direction classifiers return `Transmitted` exactly when the
header's source address string equals some local address string, and
`Received` otherwise (for both IPv4 and IPv6 headers). -/
theorem direction_from_src_membership (h4 : Ipv4Header) (h6 : Ipv6Header) (d : Device) :
    (get_direction_from_ipv4 h4 d = Direction.Transmitted ↔
      ∃ a ∈ d.addresses, a = h4.get_src_address) ∧
    (get_direction_from_ipv4 h4 d = Direction.Received ↔
      ¬ ∃ a ∈ d.addresses, a = h4.get_src_address) ∧
    (get_direction_from_ipv6 h6 d = Direction.Transmitted ↔
      ∃ a ∈ d.addresses, a = h6.get_src_address) ∧
    (get_direction_from_ipv6 h6 d = Direction.Received ↔
      ¬ ∃ a ∈ d.addresses, a = h6.get_src_address) :=
  ⟨(direction_if_iff d.addresses h4.get_src_address).1,
   (direction_if_iff d.addresses h4.get_src_address).2,
   (direction_if_iff d.addresses h6.get_src_address).1,
   (direction_if_iff d.addresses h6.get_src_address).2⟩

/-- C2: whenever any of the five decoders returns an error outcome, the
returned remainder is the original input buffer unchanged. -/
theorem decode_error_atomic (data : List Nat) :
    (∀ e r, EthernetHeader.decode data = some (Except.error e, r) → r = data) ∧
    (∀ e r, Ipv4Header.decode data = some (Except.error e, r) → r = data) ∧
    (∀ e r, Ipv6Header.decode data = some (Except.error e, r) → r = data) ∧
    (∀ e r, TCPHeader.decode data = some (Except.error e, r) → r = data) ∧
    (∀ e r, UDPHeader.decode data = some (Except.error e, r) → r = data) := by
  refine ⟨?_, ?_, ?_, ?_, ?_⟩ <;> intro e r heq
  · simp only [EthernetHeader.decode] at heq
    split at heq
    · simp_all
    · split at heq <;> simp_all
  · simp only [Ipv4Header.decode] at heq
    split at heq
    · simp_all
    · split at heq
      · simp_all
      · split at heq <;> simp_all
  · simp only [Ipv6Header.decode] at heq
    split at heq <;> simp_all
  · simp only [TCPHeader.decode] at heq
    split at heq <;> simp_all
  · simp only [UDPHeader.decode] at heq
    split at heq <;> simp_all

theorem decode_error_atomic_witness : ([1, 2, 3] : List Nat) = [1, 2, 3] :=
  (decode_error_atomic [1, 2, 3]).1
    ⟨"Cannot decode an ethernet packet because is not long enough."⟩ [1, 2, 3] rfl

/-- C1: for every successful decode at any layer, the bytes consumed by that
layer (14 for Ethernet, `(data[0] & 0x0f) * 4` for IPv4, 40 for IPv6, 20 for
TCP, 8 for UDP) plus the length of the returned remainder equal the length
of the input buffer. -/
theorem decode_consumed_plus_remainder (data : List Nat) :
    (∀ h r, EthernetHeader.decode data = some (Except.ok h, r) →
      14 + r.length = data.length) ∧
    (∀ h r, Ipv4Header.decode data = some (Except.ok h, r) →
      (data.getD 0 0 &&& 0x0f) * 4 + r.length = data.length) ∧
    (∀ h r, Ipv6Header.decode data = some (Except.ok h, r) →
      40 + r.length = data.length) ∧
    (∀ h r, TCPHeader.decode data = some (Except.ok h, r) →
      20 + r.length = data.length) ∧
    (∀ h r, UDPHeader.decode data = some (Except.ok h, r) →
      8 + r.length = data.length) := by
  refine ⟨?_, ?_, ?_, ?_, ?_⟩ <;> intro h r heq
  · simp only [EthernetHeader.decode] at heq
    split at heq
    · simp_all
    · split at heq
      · simp_all
      · simp only [Option.some.injEq, Prod.mk.injEq] at heq
        obtain ⟨-, hr⟩ := heq
        rw [← hr, List.length_drop]
        omega
  · simp only [Ipv4Header.decode] at heq
    split at heq
    · simp_all
    · split at heq
      · simp_all
      · split at heq
        · simp only [Option.some.injEq, Prod.mk.injEq] at heq
          obtain ⟨-, hr⟩ := heq
          rw [← hr, List.length_drop]
          omega
        · simp_all
  · simp only [Ipv6Header.decode] at heq
    split at heq
    · simp only [Option.some.injEq, Prod.mk.injEq] at heq
      obtain ⟨-, hr⟩ := heq
      rw [← hr, List.length_drop]
      omega
    · simp_all
  · simp only [TCPHeader.decode] at heq
    split at heq
    · simp only [Option.some.injEq, Prod.mk.injEq] at heq
      obtain ⟨-, hr⟩ := heq
      rw [← hr, List.length_drop]
      omega
    · simp_all
  · simp only [UDPHeader.decode] at heq
    split at heq
    · simp only [Option.some.injEq, Prod.mk.injEq] at heq
      obtain ⟨-, hr⟩ := heq
      rw [← hr, List.length_drop]
      omega
    · simp_all

theorem decode_consumed_plus_remainder_witness :
    14 + ([] : List Nat).length =
      ([0, 0, 0, 0, 0, 0, 0, 0, 0, 0, 0, 0, 8, 0] : List Nat).length :=
  (decode_consumed_plus_remainder [0, 0, 0, 0, 0, 0, 0, 0, 0, 0, 0, 0, 8, 0]).1
    ⟨"000000000000", "000000000000", EtherType.Ipv4⟩ [] (by rfl)

/-- C10: IPv6, TCP and UDP decode never return an error outcome: with no
minimum-length guard, a buffer long enough for all byte accesses (40, 20, 8
bytes respectively) always yields `Ok`, and any shorter buffer makes a byte
access itself go out of bounds (a panic, modelled `none`) rather than
producing a too-short error result. -/
theorem unguarded_decoders_never_error (data : List Nat) :
    ((∀ e r, Ipv6Header.decode data ≠ some (Except.error e, r)) ∧
     (40 ≤ data.length → ∃ h r, Ipv6Header.decode data = some (Except.ok h, r)) ∧
     (data.length < 40 → Ipv6Header.decode data = none)) ∧
    ((∀ e r, TCPHeader.decode data ≠ some (Except.error e, r)) ∧
     (20 ≤ data.length → ∃ h r, TCPHeader.decode data = some (Except.ok h, r)) ∧
     (data.length < 20 → TCPHeader.decode data = none)) ∧
    ((∀ e r, UDPHeader.decode data ≠ some (Except.error e, r)) ∧
     (8 ≤ data.length → ∃ h r, UDPHeader.decode data = some (Except.ok h, r)) ∧
     (data.length < 8 → UDPHeader.decode data = none)) := by
  refine ⟨⟨?_, ?_, ?_⟩, ⟨?_, ?_, ?_⟩, ⟨?_, ?_, ?_⟩⟩
  · intro e r heq
    simp only [Ipv6Header.decode] at heq
    split at heq <;> simp_all
  · intro hlen
    simp only [Ipv6Header.decode]
    rw [if_pos hlen]
    exact ⟨_, _, rfl⟩
  · intro hlen
    simp only [Ipv6Header.decode]
    rw [if_neg (by omega)]
  · intro e r heq
    simp only [TCPHeader.decode] at heq
    split at heq <;> simp_all
  · intro hlen
    simp only [TCPHeader.decode]
    rw [if_pos hlen]
    exact ⟨_, _, rfl⟩
  · intro hlen
    simp only [TCPHeader.decode]
    rw [if_neg (by omega)]
  · intro e r heq
    simp only [UDPHeader.decode] at heq
    split at heq <;> simp_all
  · intro hlen
    simp only [UDPHeader.decode]
    rw [if_pos hlen]
    exact ⟨_, _, rfl⟩
  · intro hlen
    simp only [UDPHeader.decode]
    rw [if_neg (by omega)]

theorem unguarded_decoders_never_error_witness :
    (∃ h r, Ipv6Header.decode (List.replicate 40 0) = some (Except.ok h, r)) ∧
    TCPHeader.decode [] = none ∧ UDPHeader.decode [] = none :=
  ⟨(unguarded_decoders_never_error (List.replicate 40 0)).1.2.1 (by simp),
   (unguarded_decoders_never_error []).2.1.2.2 (by simp),
   (unguarded_decoders_never_error []).2.2.2.2 (by simp)⟩

/-- C7: whenever TCP or UDP decode completes, the source port is the 16-bit
big-endian value of bytes 0..2 and the destination port that of bytes 2..4;
TCP consumes exactly 20 bytes (regardless of any data-offset field) and UDP
exactly 8, returning the corresponding suffix. -/
theorem transport_ports_big_endian (data : List Nat) (hb : ∀ b ∈ data, b < 256) :
    (∀ h r, TCPHeader.decode data = some (Except.ok h, r) →
      h.src = 256 * data.getD 0 0 + data.getD 1 0 ∧
      h.dest = 256 * data.getD 2 0 + data.getD 3 0 ∧
      r = data.drop 20) ∧
    (∀ h r, UDPHeader.decode data = some (Except.ok h, r) →
      h.src = 256 * data.getD 0 0 + data.getD 1 0 ∧
      h.dest = 256 * data.getD 2 0 + data.getD 3 0 ∧
      r = data.drop 8) := by
  constructor <;> intro h r heq
  · simp only [TCPHeader.decode] at heq
    split at heq
    · simp only [Option.some.injEq, Prod.mk.injEq, Except.ok.injEq] at heq
      obtain ⟨hh, hr⟩ := heq
      refine ⟨?_, ?_, hr.symm⟩
      · rw [← hh]
        exact shiftLeft8_or_eq _ _ (getD_lt_256 data hb 1)
      · rw [← hh]
        exact shiftLeft8_or_eq _ _ (getD_lt_256 data hb 3)
    · simp_all
  · simp only [UDPHeader.decode] at heq
    split at heq
    · simp only [Option.some.injEq, Prod.mk.injEq, Except.ok.injEq] at heq
      obtain ⟨hh, hr⟩ := heq
      refine ⟨?_, ?_, hr.symm⟩
      · rw [← hh]
        exact shiftLeft8_or_eq _ _ (getD_lt_256 data hb 1)
      · rw [← hh]
        exact shiftLeft8_or_eq _ _ (getD_lt_256 data hb 3)
    · simp_all

theorem transport_ports_big_endian_witness :
    (56369 : Nat) = 256 * 220 + 49 ∧ (443 : Nat) = 256 * 1 + 187 ∧
    ([] : List Nat) = List.drop 20
      [220, 49, 1, 187, 135, 216, 62, 67, 24, 80, 57, 27, 80, 20, 0, 0, 254, 206, 0, 0] :=
  (transport_ports_big_endian
      [220, 49, 1, 187, 135, 216, 62, 67, 24, 80, 57, 27, 80, 20, 0, 0, 254, 206, 0, 0]
      (by decide)).1 ⟨443, 56369⟩ [] (by rfl)

/-- C4: for buffers of length at least 14 (of bytes), the 16-bit big-endian
type field at bytes 12..14 dispatches as 0x0800 → IPv4, 0x0806 → ARP,
0x86DD → IPv6, and any other value produces a decode error whose message
carries the offending value in hex. -/
theorem ethernet_ethertype_mapping (data : List Nat) (hlen : 14 ≤ data.length)
    (hb : ∀ b ∈ data, b < 256) :
    (256 * data.getD 12 0 + data.getD 13 0 = 0x0800 →
      ∃ h r, EthernetHeader.decode data = some (Except.ok h, r) ∧
        h.ether_type = EtherType.Ipv4) ∧
    (256 * data.getD 12 0 + data.getD 13 0 = 0x0806 →
      ∃ h r, EthernetHeader.decode data = some (Except.ok h, r) ∧
        h.ether_type = EtherType.ARP) ∧
    (256 * data.getD 12 0 + data.getD 13 0 = 0x86DD →
      ∃ h r, EthernetHeader.decode data = some (Except.ok h, r) ∧
        h.ether_type = EtherType.Ipv6) ∧
    (256 * data.getD 12 0 + data.getD 13 0 ≠ 0x0800 →
     256 * data.getD 12 0 + data.getD 13 0 ≠ 0x0806 →
     256 * data.getD 12 0 + data.getD 13 0 ≠ 0x86DD →
      EthernetHeader.decode data = some (Except.error
        ⟨"Cannot get the correct ether type, received 0x" ++
          String.mk (Nat.toDigits 16 (256 * data.getD 12 0 + data.getD 13 0))⟩, data)) := by
  have hv : ((((data.take 14).drop 12).take 2).getD 0 0 <<< 8) |||
      (((data.take 14).drop 12).take 2).getD 1 0 =
      256 * data.getD 12 0 + data.getD 13 0 := by
    rw [eth_type_vec_getD data 0 (by omega), eth_type_vec_getD data 1 (by omega)]
    show (data.getD 12 0 <<< 8) ||| data.getD 13 0 = _
    exact shiftLeft8_or_eq _ _ (getD_lt_256 data hb 13)
  have hdec : EthernetHeader.decode data =
      match etherTypeOf (256 * data.getD 12 0 + data.getD 13 0) with
      | Except.error e => some (Except.error e, data)
      | Except.ok ether_type =>
          some (Except.ok
            ⟨mac_address_to_string ((data.take 14).take 6),
             mac_address_to_string (((data.take 14).drop 6).take 6),
             ether_type⟩,
            data.drop 14) := by
    simp only [EthernetHeader.decode]
    rw [if_neg (by omega), hv]
  refine ⟨?_, ?_, ?_, ?_⟩
  · intro hcase
    rw [hdec, hcase]
    exact ⟨_, _, rfl, rfl⟩
  · intro hcase
    rw [hdec, hcase]
    exact ⟨_, _, rfl, rfl⟩
  · intro hcase
    rw [hdec, hcase]
    exact ⟨_, _, rfl, rfl⟩
  · intro h1 h2 h3
    rw [hdec]
    have he : etherTypeOf (256 * data.getD 12 0 + data.getD 13 0) =
        Except.error
          ⟨"Cannot get the correct ether type, received 0x" ++
            String.mk (Nat.toDigits 16 (256 * data.getD 12 0 + data.getD 13 0))⟩ := by
      unfold etherTypeOf
      split <;> simp_all
    rw [he]

theorem ethernet_ethertype_mapping_witness :
    ∃ h r, EthernetHeader.decode [0, 0, 0, 0, 0, 0, 0, 0, 0, 0, 0, 0, 8, 0] =
      some (Except.ok h, r) ∧ h.ether_type = EtherType.Ipv4 :=
  (ethernet_ethertype_mapping [0, 0, 0, 0, 0, 0, 0, 0, 0, 0, 0, 0, 8, 0]
      (by decide) (by decide)).1 (by decide)

/-- C5: protocol-tag dispatch is asymmetric: with byte 9 in bounds, IPv4
decode maps 0x06 → TCP and 0x11 → UDP and fails on every other value, while
IPv6 decode maps 0x06 → TCP, 0x11 → UDP and every other value to `Unknown`
without failing. -/
theorem protocol_dispatch_asymmetry :
    (∀ data : List Nat, 20 ≤ data.length →
      ((data.getD 9 0 = 0x06 → ∀ h r, Ipv4Header.decode data = some (Except.ok h, r) →
          h.protocol = Protocol.TCP) ∧
       (data.getD 9 0 = 0x11 → ∀ h r, Ipv4Header.decode data = some (Except.ok h, r) →
          h.protocol = Protocol.UDP) ∧
       (data.getD 9 0 ≠ 0x06 → data.getD 9 0 ≠ 0x11 →
          Ipv4Header.decode data = some (Except.error
            ⟨"Unable to identify level 4 protocol. Received 0x" ++
              String.mk (Nat.toDigits 16 (data.getD 9 0))⟩, data)))) ∧
    (∀ data : List Nat, 40 ≤ data.length →
      ∃ h r, Ipv6Header.decode data = some (Except.ok h, r) ∧
        (data.getD 9 0 = 0x06 → h.protocol = Protocol.TCP) ∧
        (data.getD 9 0 = 0x11 → h.protocol = Protocol.UDP) ∧
        (data.getD 9 0 ≠ 0x06 → data.getD 9 0 ≠ 0x11 → h.protocol = Protocol.Unknown)) := by
  constructor
  · intro data hlen
    refine ⟨?_, ?_, ?_⟩
    · intro h9 h r heq
      simp only [Ipv4Header.decode] at heq
      rw [if_neg (by omega), h9] at heq
      simp only [show ipv4ProtocolOf 0x06 = Except.ok Protocol.TCP from rfl] at heq
      split at heq
      · simp only [Option.some.injEq, Prod.mk.injEq, Except.ok.injEq] at heq
        obtain ⟨hh, -⟩ := heq
        rw [← hh]
      · simp_all
    · intro h9 h r heq
      simp only [Ipv4Header.decode] at heq
      rw [if_neg (by omega), h9] at heq
      simp only [show ipv4ProtocolOf 0x11 = Except.ok Protocol.UDP from rfl] at heq
      split at heq
      · simp only [Option.some.injEq, Prod.mk.injEq, Except.ok.injEq] at heq
        obtain ⟨hh, -⟩ := heq
        rw [← hh]
      · simp_all
    · intro h6 h17
      have he : ipv4ProtocolOf (data.getD 9 0) = Except.error
          ⟨"Unable to identify level 4 protocol. Received 0x" ++
            String.mk (Nat.toDigits 16 (data.getD 9 0))⟩ := by
        unfold ipv4ProtocolOf
        split <;> simp_all
      simp only [Ipv4Header.decode]
      rw [if_neg (by omega), he]
  · intro data hlen
    refine ⟨⟨ipv6_address_to_string ((data.drop 20).take 16),
             ipv6_address_to_string ((data.drop 8).take 12),
             ipv6ProtocolOf (data.getD 9 0)⟩, data.drop 40, ?_, ?_, ?_, ?_⟩
    · simp only [Ipv6Header.decode]
      rw [if_pos hlen]
    · intro h9
      show ipv6ProtocolOf (data.getD 9 0) = Protocol.TCP
      rw [h9]
      rfl
    · intro h9
      show ipv6ProtocolOf (data.getD 9 0) = Protocol.UDP
      rw [h9]
      rfl
    · intro h6 h17
      show ipv6ProtocolOf (data.getD 9 0) = Protocol.Unknown
      unfold ipv6ProtocolOf
      split <;> simp_all

theorem protocol_dispatch_asymmetry_witness :
    Ipv4Header.decode [69, 0, 0, 0, 0, 0, 0, 0, 0, 255, 0, 0, 1, 2, 3, 4, 5, 6, 7, 8] =
      some (Except.error
        ⟨"Unable to identify level 4 protocol. Received 0xff"⟩,
        [69, 0, 0, 0, 0, 0, 0, 0, 0, 255, 0, 0, 1, 2, 3, 4, 5, 6, 7, 8]) ∧
    (∃ h r, Ipv6Header.decode (List.replicate 40 0) = some (Except.ok h, r) ∧
      (((List.replicate 40 0 : List Nat).getD 9 0 = 0x06 → h.protocol = Protocol.TCP) ∧
       ((List.replicate 40 0 : List Nat).getD 9 0 = 0x11 → h.protocol = Protocol.UDP) ∧
       ((List.replicate 40 0 : List Nat).getD 9 0 ≠ 0x06 →
        (List.replicate 40 0 : List Nat).getD 9 0 ≠ 0x11 →
          h.protocol = Protocol.Unknown))) := by
  constructor
  · exact (protocol_dispatch_asymmetry.1
      [69, 0, 0, 0, 0, 0, 0, 0, 0, 255, 0, 0, 1, 2, 3, 4, 5, 6, 7, 8]
      (by decide)).2.2 (by decide) (by decide)
  · obtain ⟨h, r, h1, h2, h3, h4⟩ := protocol_dispatch_asymmetry.2 (List.replicate 40 0) (by simp)
    exact ⟨h, r, h1, h2, h3, h4⟩

/-- C6 counterexample: a 20-byte buffer whose low nibble of byte 0 is 15
(header length 60 > 20) and whose byte 9 is 0x06.  The claim says IPv4
decode succeeds on it; in the code the slice `&data[60..20]` is out of
bounds (a panic, modelled `none`), so no successful decode is returned. -/
theorem ipv4_decode_oob_counterexample :
    ([15, 0, 0, 0, 0, 0, 0, 0, 0, 6, 0, 0, 1, 2, 3, 4, 5, 6, 7, 8] : List Nat).length = 20 ∧
    ([15, 0, 0, 0, 0, 0, 0, 0, 0, 6, 0, 0, 1, 2, 3, 4, 5, 6, 7, 8] : List Nat).getD 9 0 = 0x06 ∧
    Ipv4Header.decode [15, 0, 0, 0, 0, 0, 0, 0, 0, 6, 0, 0, 1, 2, 3, 4, 5, 6, 7, 8] = none :=
  ⟨rfl, rfl, rfl⟩

/-- C6 (amended): for every buffer of length at least 20 whose byte 9 is
0x06 or 0x11, and whose computed header length `(data[0] & 0x0f) * 4` does
not exceed the buffer length, IPv4 decode succeeds, extracts the source
address from bytes 12..16 and the destination from bytes 16..20 in dotted
decimal, and returns bytes `header_len..end` as the remainder. -/
theorem ipv4_decode_success_shape (data : List Nat) (hlen : 20 ≤ data.length)
    (hp : data.getD 9 0 = 0x06 ∨ data.getD 9 0 = 0x11)
    (hhl : (data.getD 0 0 &&& 0x0f) * 4 ≤ data.length) :
    Ipv4Header.decode data = some (Except.ok
      ⟨ipv4_address_to_string ((data.drop 16).take 4),
       ipv4_address_to_string ((data.drop 12).take 4),
       if data.getD 9 0 = 0x06 then Protocol.TCP else Protocol.UDP⟩,
      data.drop ((data.getD 0 0 &&& 0x0f) * 4)) := by
  simp only [Ipv4Header.decode]
  rw [if_neg (by omega)]
  rcases hp with h9 | h9 <;> rw [h9]
  · simp only [show ipv4ProtocolOf 0x06 = Except.ok Protocol.TCP from rfl]
    rw [if_pos hhl]
    simp
  · simp only [show ipv4ProtocolOf 0x11 = Except.ok Protocol.UDP from rfl]
    rw [if_pos hhl]
    simp

theorem ipv4_decode_success_shape_witness :
    Ipv4Header.decode [69, 0, 0, 0, 0, 0, 0, 0, 0, 6, 0, 0, 192, 168, 1, 1, 192, 168, 1, 21] =
      some (Except.ok ⟨"192.168.1.21", "192.168.1.1", Protocol.TCP⟩, []) := by
  rw [ipv4_decode_success_shape
    [69, 0, 0, 0, 0, 0, 0, 0, 0, 6, 0, 0, 192, 168, 1, 1, 192, 168, 1, 21]
    (by decide) (Or.inl (by decide)) (by decide)]
  rfl

end PktParser
